import Mathlib

/-!
# Verification of the verdaccio-security-filter core

A shallow embedding of the security-filter plugin (`src/index.ts`,
`src/types.ts`, `src/lib/whitelist-checker.ts`, `src/lib/license-checker.ts`,
`src/lib/package-age-checker.ts`, `src/lib/author-checker.ts`) together with
theorems settling the specification claims about it.

Modelling conventions:
* JavaScript objects used as string-keyed maps (`versions`, `dist-tags`,
  `time`) are association lists in insertion order; `Object.keys` is the list
  of first components.
* External libraries are parameters of the evaluation environment `Env`:
  the `RegExp` engine (`regexCompile`, compilation either yields a total
  matcher or throws with a message; `regexCompileI` is the case-insensitive
  variant used by the author checker), the `semver` library
  (`semverSatisfies` and `validRange` never throw in the library itself),
  the CVE lookup collaborator (`cveCheck`, whose implementation is not part
  of the core sources; the core only consumes fulfilment or rejection), and
  the clock `now` in milliseconds since the epoch.
* `time` entries are modelled as the parsed epoch value of the timestamp
  string; a `none` entry stands for a non-string value (the code checks
  `typeof === 'string'` before parsing).
* JavaScript truthiness on optional strings / numbers is made explicit via
  `truthyOpt` / `jsOrStr` / `jsOrInt`.
* Logging and metrics calls have no effect on any returned value and are
  therefore dropped.  The `security` annotation object is modelled by the
  two fields the claims inspect (`blocked`, `reason`); the remaining fields
  (plugin info, timestamps, applied rules) are informational strings only.
* Exceptions are `Except String`; `Promise.allSettled` rejection handling
  is the `.error` branch of the CVE oracle.
-/

namespace VSF

/-- Association-list lookup, modelling `obj[key]` / `key in obj` on plain
JavaScript objects (first binding wins; JS objects have unique keys). -/
def alookup {α : Type} (k : String) (l : List (String × α)) : Option α :=
  (l.find? (fun kv => kv.1 == k)).map (·.2)

/-- JavaScript truthiness of an optional string (`undefined` and `""` are
falsy). -/
def truthyOpt : Option String → Bool
  | none => false
  | some s => s ≠ ""

/-- JavaScript `s || d` for an optional string `s`. -/
def jsOrStr (o : Option String) (d : String) : String :=
  match o with
  | none => d
  | some s => if s = "" then d else s

/-- JavaScript `n || d` for an optional number `n` (`0` is falsy). -/
def jsOrInt (o : Option Int) (d : Int) : Int :=
  match o with
  | none => d
  | some n => if n = 0 then d else n

/-- JavaScript truthiness of an optional number (`undefined` and `0` are
falsy); used for `minVersionAgeDays`. -/
def truthyOptInt : Option Int → Bool
  | none => false
  | some n => n ≠ 0

/-- `sub` occurs as a contiguous substring of `l`. -/
def listInfix (sub l : List Char) : Bool :=
  match l with
  | [] => sub.isEmpty
  | _ :: t => sub.isPrefixOf l || listInfix sub t

/-- String containment (`reason.includes(errorText)` for the claims about
error messages appearing in a reason string). -/
def strContains (s sub : String) : Bool :=
  listInfix sub.toList s.toList

/-- `s.startsWith(p)` (list-based so that closed terms reduce). -/
def strStartsWith (s p : String) : Bool :=
  p.toList.isPrefixOf s.toList

/-- `s.endsWith(p)` (list-based so that closed terms reduce). -/
def strEndsWith (s p : String) : Bool :=
  p.toList.isSuffixOf s.toList

/-- `s.trim()` (strip leading and trailing whitespace). -/
def strTrim (s : String) : String :=
  String.mk (((s.toList.dropWhile Char.isWhitespace).reverse.dropWhile Char.isWhitespace).reverse)

/-- `s.toLowerCase()`. -/
def strToLower (s : String) : String :=
  String.mk (s.toList.map Char.toLower)

/-- `s.split(sep)[0]` for a single-character separator: the segment before
the first occurrence (the whole string when the separator is absent). -/
def headSegment (s : String) (sep : Char) : String :=
  String.mk (s.toList.takeWhile (fun c => c ≠ sep))

/-- `VersionRangeRule` from `src/types.ts`.  `strategy` is kept as a raw
string because the loader validates it by truthiness before use. -/
structure VersionRangeRule where
  package : String
  range : String
  strategy : String
  fallbackVersion : Option String := none
  reason : Option String := none
deriving DecidableEq, Repr

/-- `WhitelistConfig` from `src/types.ts` (the `autoApprove` block is consumed
only by the unimplemented auto-approve placeholder and is omitted). -/
structure WhitelistConfig where
  packages : List String := []
  patterns : List String := []
  versions : List (String × String) := []
deriving DecidableEq, Repr

/-- `LicenseConfig` from `src/types.ts`. -/
structure LicenseConfig where
  allowed : List String := []
  blocked : List String := []
  requireLicense : Bool := true
deriving DecidableEq, Repr

/-- The fields of `CVECheckConfig` that the core (`src/index.ts`) reads; the
database/severity fields are consumed only by the external CVE client. -/
structure CVECheckConfig where
  enabled : Bool := false
  autoBlock : Bool := false
deriving DecidableEq, Repr

/-- `PackageAgeConfig` from `src/types.ts`. -/
structure PackageAgeConfig where
  enabled : Bool := false
  minPackageAgeDays : Int := 0
  minVersionAgeDays : Option Int := none
  warnOnly : Bool := false
deriving DecidableEq, Repr

/-- `AuthorFilterConfig` from `src/types.ts`; optional list fields are
normalised to `[]` exactly as the `AuthorChecker` constructor does. -/
structure AuthorFilterConfig where
  enabled : Bool := false
  blockedAuthors : List String := []
  blockedAuthorPatterns : List String := []
  blockedEmails : List String := []
  blockedEmailPatterns : List String := []
  blockedEmailDomains : List String := []
  blockedRegions : List String := []
  requireVerifiedEmail : Bool := false
  warnOnly : Bool := false
deriving Repr

/-- The `errorHandling` block of `SecurityConfig`. -/
structure ErrorHandling where
  onFilterError : Option String := none
  onCveCheckError : Option String := none
  onLicenseCheckError : Option String := none
deriving DecidableEq, Repr

/-- `SecurityConfig` from `src/types.ts` (the fields the evaluator reads). -/
structure SecurityConfig where
  blockedVersions : Option (List String) := none
  blockedPatterns : Option (List String) := none
  minPackageSize : Option Int := none
  maxPackageSize : Option Int := none
  allowedScopes : Option (List String) := none
  blockedScopes : Option (List String) := none
  enforceChecksum : Option Bool := none
  versionRangeRules : Option (List VersionRangeRule) := none
  mode : Option String := none
  whitelist : Option WhitelistConfig := none
  licenses : Option LicenseConfig := none
  cveCheck : Option CVECheckConfig := none
  packageAge : Option PackageAgeConfig := none
  authorFilter : Option AuthorFilterConfig := none
  errorHandling : Option ErrorHandling := none

/-- `SecurityRules` from `src/types.ts`, built by the plugin constructor. -/
structure SecurityRules where
  blockedVersions : List String
  blockedPatterns : List String
  minPackageSize : Int
  maxPackageSize : Int
  allowedScopes : List String
  blockedScopes : List String
  enforceChecksum : Bool
  versionRangeRules : List VersionRangeRule

/-- The `license` field of a version record: a plain string, an SPDX object
with a `type` field, or some other shape (which `extractLicense` maps to
`null`).  `none` at the use site models an absent field. -/
inductive LicenseField where
  | str (s : String)
  | objWithType (t : String)
  | other
deriving DecidableEq, Repr

/-- An author / maintainer / contributor entry: either the string form
`"Name <email>"` or the structured `{name, email, url}` form. -/
inductive AuthorField where
  | str (s : String)
  | obj (name email url : Option String)
deriving DecidableEq, Repr

/-- A version record (`VersionData` in `src/types.ts`): the fields the
checkers inspect, the fallback annotation fields, and `payload`, which
stands for all remaining upstream metadata (dist, dependencies, ...). -/
structure VersionData where
  version : String
  license : Option LicenseField := none
  author : Option AuthorField := none
  maintainers : List AuthorField := []
  contributors : List AuthorField := []
  fallbackFlag : Option Bool := none
  fallbackFrom : Option String := none
  fallbackReason : Option String := none
  payload : Nat := 0
deriving DecidableEq, Repr

/-- The `security` annotation written by the filter; only the fields that
the claims inspect are modelled. -/
structure Security where
  blocked : Bool
  reason : String
deriving DecidableEq, Repr

/-- A package metadata document (`Package`): name, version map, dist-tag
map, publish times, and an optional `security` annotation. -/
structure Pkg where
  name : String
  versions : List (String × VersionData) := []
  distTags : List (String × String) := []
  time : Option (List (String × Option Int)) := none
  security : Option Security := none
deriving DecidableEq, Repr

/-- A CVE lookup result; the core reads only `isVulnerable` (the
vulnerability list is used for log output alone). -/
structure CVECheckResult where
  isVulnerable : Bool
deriving DecidableEq, Repr

/-- The evaluation environment: the external collaborators of the core. -/
structure Env where
  /-- `new RegExp(p)` followed by `.test`: either a total matcher or a
  thrown `SyntaxError` message. -/
  regexCompile : String → Except String (String → Bool)
  /-- `new RegExp(p, i-flag)`, used by the author checker. -/
  regexCompileI : String → Except String (String → Bool)
  /-- `semver.satisfies(version, range)`; the library returns `false` on
  malformed input rather than throwing. -/
  semverSatisfies : String → String → Bool
  /-- `semver.validRange(range)`; `none` models `null`. -/
  validRange : String → Option String
  /-- `cveChecker.checkPackage(name, version)`: fulfilment or rejection of
  the lookup promise (the CVE client itself is an external collaborator). -/
  cveCheck : String → String → Except String CVECheckResult
  /-- `Date.now()` in milliseconds. -/
  now : Int

/-- `_parseVersionRangeRules` (src/index.ts:85-111): map each entry to
itself or `null` (dropping entries with a falsy `package`/`range`/`strategy`,
fallback entries without a truthy `fallbackVersion`, and entries whose range
is not a valid semver range), then keep the non-null ones.  Warnings are
log-only.  The `try/catch` around `semver.validRange` is vacuous because the
library call is total. -/
def parseVersionRangeRules (validRange : String → Option String)
    (rules : List VersionRangeRule) : List VersionRangeRule :=
  (rules.map (fun rule =>
    if rule.package = "" ∨ rule.range = "" ∨ rule.strategy = "" then
      none
    else if rule.strategy = "fallback" ∧ ¬ truthyOpt rule.fallbackVersion then
      none
    else
      match validRange rule.range with
      | none => none
      | some _ => some rule)).filterMap id

/-- The `securityRules` object built in the plugin constructor
(src/index.ts:67-76). -/
def securityRulesOf (env : Env) (cfg : SecurityConfig) : SecurityRules where
  blockedVersions := cfg.blockedVersions.getD []
  blockedPatterns := cfg.blockedPatterns.getD []
  minPackageSize := jsOrInt cfg.minPackageSize 0
  maxPackageSize := jsOrInt cfg.maxPackageSize (100 * 1024 * 1024)
  allowedScopes := cfg.allowedScopes.getD []
  blockedScopes := cfg.blockedScopes.getD []
  enforceChecksum := cfg.enforceChecksum ≠ some false
  versionRangeRules := parseVersionRangeRules env.validRange (cfg.versionRangeRules.getD [])

/-- `_isBlockedByPattern` (src/index.ts:169-174): `Array.prototype.some`
over the blocked patterns, compiling each with `new RegExp` **without** a
`try/catch`, so a compilation failure propagates as an exception and later
patterns are not reached. -/
def isBlockedByPattern (env : Env) (patterns : List String) (name : String) :
    Except String Bool :=
  match patterns with
  | [] => .ok false
  | p :: rest =>
    match env.regexCompile p with
    | .error e => .error e
    | .ok test => if test name then .ok true else isBlockedByPattern env rest name

/-- `_isScopeAllowed` (src/index.ts:180-199). -/
def isScopeAllowed (rules : SecurityRules) (name : String) : Bool :=
  if ¬ strStartsWith name "@" then
    rules.allowedScopes.isEmpty
  else
    let scope := headSegment name '/' 
    if rules.blockedScopes.contains scope then
      false
    else if ¬ rules.allowedScopes.isEmpty then
      rules.allowedScopes.contains scope
    else
      true

/-- `_getVersionRangeRule` (src/index.ts:205-218): the first configured rule
whose `package` matches exactly and whose range is satisfied by the version
(the `try/catch` is vacuous since `semver.satisfies` is total). -/
def getVersionRangeRule (env : Env) (rules : List VersionRangeRule)
    (name version : String) : Option VersionRangeRule :=
  rules.find? (fun rule => rule.package == name && env.semverSatisfies version rule.range)

/-- `WhitelistChecker.matchesPattern` (lib/whitelist-checker.ts): each
pattern is compiled inside a `try/catch`, so an invalid pattern is treated
as matching nothing (with an error log). -/
def matchesPattern (env : Env) (patterns : List String) (name : String) : Bool :=
  patterns.any (fun p =>
    match env.regexCompile p with
    | .ok test => test name
    | .error _ => false)

/-- Result record of `WhitelistChecker.isWhitelisted`. -/
structure WLResult where
  allowed : Bool
  reason : Option String := none
deriving DecidableEq, Repr

/-- `WhitelistChecker.isWhitelisted` (lib/whitelist-checker.ts): exact
package membership (optionally constrained by a per-package version range
when a truthy version is supplied), then pattern membership. -/
def isWhitelisted (env : Env) (cfg : WhitelistConfig) (name : String)
    (version : Option String) : WLResult :=
  if cfg.packages.contains name then
    match version, alookup name cfg.versions with
    | some v, some versionRange =>
      if v ≠ "" ∧ ¬ env.semverSatisfies v versionRange then
        { allowed := false
          reason := some ("Version " ++ v ++ " does not satisfy whitelist constraint " ++ versionRange) }
      else
        { allowed := true }
    | _, _ => { allowed := true }
  else if matchesPattern env cfg.patterns name then
    { allowed := true }
  else
    { allowed := false, reason := some "Package is not in whitelist" }

/-- Result record of `_checkPackageBlock`. -/
structure BlockResult where
  blocked : Bool
  reason : String
deriving DecidableEq, Repr

/-- `_checkPackageBlock` (src/index.ts:585-619): whitelist mode, blocked
patterns, scope policy, and — only when a version is supplied — the exact
`package@version` block list and range rules with `strategy === 'block'`.
A regex compilation failure in the pattern step escapes as an exception. -/
def checkPackageBlock (env : Env) (cfg : SecurityConfig) (name : String)
    (version : Option String) : Except String BlockResult :=
  let rules := securityRulesOf env cfg
  if cfg.mode = some "whitelist"
      ∧ ¬ (isWhitelisted env (cfg.whitelist.getD {}) name version).allowed then
    .ok { blocked := true
          reason := jsOrStr (isWhitelisted env (cfg.whitelist.getD {}) name version).reason
                      "Package is not in whitelist" }
  else do
    let pat ← isBlockedByPattern env rules.blockedPatterns name
    if pat then
      .ok { blocked := true, reason := "Package name matches blocked pattern" }
    else if ¬ isScopeAllowed rules name then
      .ok { blocked := true, reason := "Package scope not allowed" }
    else
      match version with
      | some v =>
        let versionKey := name ++ "@" ++ v
        if rules.blockedVersions.contains versionKey then
          .ok { blocked := true, reason := "Exact version match in blocklist" }
        else
          match getVersionRangeRule env rules.versionRangeRules name v with
          | some rangeRule =>
            if rangeRule.strategy = "block" then
              .ok { blocked := true, reason := "Version matches blocked range: " ++ rangeRule.range }
            else
              .ok { blocked := false, reason := "" }
          | none => .ok { blocked := false, reason := "" }
      | none => .ok { blocked := false, reason := "" }

/-! ## License checker (`src/lib/license-checker.ts`) -/

/-- `LicenseChecker.extractLicense`: a falsy (`""`) or absent license field
yields `null`; a string is returned as-is; an object with a `type` field
yields that field; anything else yields `null`. -/
def extractLicense (vd : VersionData) : Option String :=
  match vd.license with
  | none => none
  | some (LicenseField.str s) => if s = "" then none else some s
  | some (LicenseField.objWithType t) => some t
  | some LicenseField.other => none

/-- Try to match the SPDX separator regex `\s+(?:OR|AND)\s+` (flag `i`) at
the head of `cs`, returning the remainder after the match.  Both `\s+` are
greedy; backtracking cannot help because the keyword letters are not
whitespace, so the match is: a maximal whitespace run, the keyword, and at
least one further whitespace character (consumed greedily). -/
def dropLicenseKeyword (cs : List Char) : Option (List Char) :=
  match cs with
  | a :: b :: c :: rest =>
    if a.toUpper = 'O' ∧ b.toUpper = 'R' then some (c :: rest)
    else if a.toUpper = 'A' ∧ b.toUpper = 'N' ∧ c.toUpper = 'D' then some rest
    else none
  | [a, b] => if a.toUpper = 'O' ∧ b.toUpper = 'R' then some [] else none
  | _ => none

/-- One attempted match of the separator at the current position. -/
def matchLicenseSep (cs : List Char) : Option (List Char) :=
  let ws1 := cs.takeWhile Char.isWhitespace
  if ws1.isEmpty then none
  else
    match dropLicenseKeyword (cs.drop ws1.length) with
    | none => none
    | some afterKw =>
      let ws2 := afterKw.takeWhile Char.isWhitespace
      if ws2.isEmpty then none else some (afterKw.drop ws2.length)

/-- Splitting scanner for `license.split(/\s+(?:OR|AND)\s+/i)`: at each
position try the separator (regex search order: earliest start wins);
otherwise the character joins the current token.  `fuel` bounds the
recursion (each step consumes at least one character). -/
def splitLicenseAux : Nat → List Char → List Char → List (List Char)
  | 0, acc, cs => [acc.reverse ++ cs]
  | _ + 1, acc, [] => [acc.reverse]
  | fuel + 1, acc, c :: rest =>
    match matchLicenseSep (c :: rest) with
    | some after => acc.reverse :: splitLicenseAux fuel [] after
    | none => splitLicenseAux fuel (c :: acc) rest

/-- `license.split(/\s+(?:OR|AND)\s+/i)` as a list of token strings. -/
def splitLicense (license : String) : List String :=
  (splitLicenseAux license.toList.length [] license.toList).map (fun t => String.mk t)

/-- `LicenseChecker.isLicenseBlocked`: exact match against a blocked entry,
or a trimmed SPDX token equal to the entry. -/
def isLicenseBlocked (cfg : LicenseConfig) (license : String) : Bool :=
  cfg.blocked.any (fun blocked =>
    blocked == license ||
    (splitLicense license).any (fun token => strTrim token == blocked))

/-- `LicenseChecker.isLicenseAllowed`: exact match against an allowed entry,
or a trimmed SPDX token equal to the entry. -/
def isLicenseAllowed (cfg : LicenseConfig) (license : String) : Bool :=
  cfg.allowed.any (fun allowed =>
    allowed == license ||
    (splitLicense license).any (fun token => strTrim token == allowed))

/-- Result record of `LicenseChecker.checkLicense`. -/
structure LicenseResult where
  allowed : Bool
  reason : Option String := none
  license : Option String := none
deriving DecidableEq, Repr

/-- `LicenseChecker.checkLicense`: missing/`""`/`"UNLICENSED"` licenses block
exactly when `requireLicense`; otherwise the blocked list is consulted
first, then (when non-empty) the allowed list. -/
def checkLicense (cfg : LicenseConfig) (vd : VersionData) : LicenseResult :=
  let license := extractLicense vd
  match license with
  | none =>
    if cfg.requireLicense then
      { allowed := false, reason := some "Package does not specify a license"
        license := some (jsOrStr license "none") }
    else { allowed := true }
  | some lic =>
    if lic = "UNLICENSED" ∨ lic = "" then
      if cfg.requireLicense then
        { allowed := false, reason := some "Package does not specify a license"
          license := some (jsOrStr license "none") }
      else { allowed := true }
    else if isLicenseBlocked cfg lic then
      { allowed := false, reason := some ("License '" ++ lic ++ "' is in blocked list")
        license := some lic }
    else if ¬ cfg.allowed.isEmpty ∧ ¬ isLicenseAllowed cfg lic then
      { allowed := false, reason := some ("License '" ++ lic ++ "' is not in allowed list")
        license := some lic }
    else { allowed := true, license := some lic }

/-! ## Package age checker (`src/lib/package-age-checker.ts`) -/

/-- Result record of the age checks; `warnOnly` is present only on the
failing branch (JavaScript `undefined` elsewhere), and the caller tests it
by truthiness. -/
structure AgeResult where
  allowed : Bool
  reason : Option String := none
  ageDays : Option Int := none
  warnOnly : Option Bool := none
deriving DecidableEq, Repr

/-- JavaScript truthiness of an optional boolean field. -/
def truthyOptBool : Option Bool → Bool
  | some b => b
  | none => false

/-- `PackageAgeChecker.getPackageCreationDate`: the `created` entry when it
is a string, else the minimum over the per-version timestamps (keys other
than `modified`/`created`), else `null`. -/
def getPackageCreationDate (time : Option (List (String × Option Int))) : Option Int :=
  match time with
  | none => none
  | some t =>
    let fallback :=
      let versionDates := (t.filter (fun kv => kv.1 ≠ "modified" ∧ kv.1 ≠ "created")).filterMap (·.2)
      match versionDates with
      | [] => none
      | d :: ds => some (ds.foldl min d)
    match alookup "created" t with
    | some (some created) => some created
    | _ => fallback

/-- `PackageAgeChecker.getVersionPublishDate`. -/
def getVersionPublishDate (time : Option (List (String × Option Int)))
    (version : String) : Option Int :=
  match time with
  | none => none
  | some t =>
    match alookup version t with
    | some (some d) => some d
    | _ => none

/-- `PackageAgeChecker.calculateAgeDays`: `Math.floor((now - t) / 86400000)`
(floor division, `Int.fdiv`). -/
def calculateAgeDays (now t : Int) : Int :=
  (now - t).fdiv 86400000

/-- `PackageAgeChecker.checkPackageAge`. -/
def checkPackageAge (cfg : PackageAgeConfig) (now : Int) (pkg : Pkg) : AgeResult :=
  if ¬ cfg.enabled then { allowed := true }
  else
    match getPackageCreationDate pkg.time with
    | none => { allowed := true, reason := some "Cannot determine package creation date" }
    | some created =>
      let ageDays := calculateAgeDays now created
      if ageDays < cfg.minPackageAgeDays then
        { allowed := cfg.warnOnly
          reason := some ("Package is only " ++ toString ageDays ++ " days old (minimum: "
            ++ toString cfg.minPackageAgeDays ++ " days)")
          ageDays := some ageDays
          warnOnly := some cfg.warnOnly }
      else { allowed := true, ageDays := some ageDays }

/-- `PackageAgeChecker.checkVersionAge`. -/
def checkVersionAge (cfg : PackageAgeConfig) (now : Int) (pkg : Pkg)
    (version : String) : AgeResult :=
  if ¬ cfg.enabled ∨ ¬ truthyOptInt cfg.minVersionAgeDays then { allowed := true }
  else
    match getVersionPublishDate pkg.time version with
    | none =>
      { allowed := true
        reason := some ("Cannot determine version " ++ version ++ " publish date") }
    | some published =>
      let ageDays := calculateAgeDays now published
      if ageDays < cfg.minVersionAgeDays.getD 0 then
        { allowed := cfg.warnOnly
          reason := some ("Version " ++ version ++ " is only " ++ toString ageDays
            ++ " days old (minimum: " ++ toString (cfg.minVersionAgeDays.getD 0) ++ " days)")
          ageDays := some ageDays
          warnOnly := some cfg.warnOnly }
      else { allowed := true, ageDays := some ageDays }

/-! ## Author checker (`src/lib/author-checker.ts`) -/

/-- A normalised author identity. -/
structure AuthorInfo where
  name : Option String := none
  email : Option String := none
  url : Option String := none
deriving DecidableEq, Repr

/-- The static `REGION_DOMAINS` table. -/
def REGION_DOMAINS : List (String × List String) :=
  [ ("ru", [".ru", "yandex.ru", "mail.ru", "rambler.ru", "ya.ru", "bk.ru", "list.ru"])
  , ("cn", [".cn", "qq.com", "163.com", "126.com", "sina.com", "sohu.com"])
  , ("by", [".by", "tut.by", "mail.by"])
  , ("kp", [".kp"])
  , ("ir", [".ir"])
  , ("sy", [".sy"])
  , ("cu", [".cu"])
  , ("sd", [".sd"]) ]

/-- The leftmost capture of `/<([^>]+)>/`: the first `<` followed by at
least one non-`>` character and a closing `>`. -/
def findEmailCapture : List Char → Option (List Char)
  | [] => none
  | c :: rest =>
    if c = '<' then
      let body := rest.takeWhile (fun x => x ≠ '>')
      if body.isEmpty then findEmailCapture rest
      else
        match rest.drop body.length with
        | '>' :: _ => some body
        | _ => findEmailCapture rest
    else findEmailCapture rest

/-- The capture of `/^([^<]+)/`: the non-empty leading run of non-`<`
characters, if any. -/
def leadingName (cs : List Char) : Option (List Char) :=
  let body := cs.takeWhile (fun x => x ≠ '<')
  if body.isEmpty then none else some body

/-- `AuthorChecker._normalizeAuthor`. -/
def normalizeAuthor : AuthorField → AuthorInfo
  | AuthorField.str s =>
    let cs := s.toList
    { name := (leadingName cs).map (fun l => strTrim (String.mk l))
      email := (findEmailCapture cs).map (fun l => strTrim (String.mk l))
      url := none }
  | AuthorField.obj n e u => { name := n, email := e, url := u }

/-- `AuthorChecker._extractAuthors`: the (truthy) `author` field, then all
maintainers, then all contributors. -/
def extractAuthors (vd : VersionData) : List AuthorInfo :=
  (match vd.author with
   | some (AuthorField.str s) =>
     if s = "" then [] else [normalizeAuthor (AuthorField.str s)]
   | some (AuthorField.obj n e u) => [normalizeAuthor (AuthorField.obj n e u)]
   | none => [])
  ++ vd.maintainers.map normalizeAuthor
  ++ vd.contributors.map normalizeAuthor

/-- The compiled state of an `AuthorChecker` (constructor normalisation:
lower-cased and trimmed name/email/domain lists, region table restricted to
the configured regions). -/
structure AuthorChecker where
  enabled : Bool
  requireVerifiedEmail : Bool
  blockedAuthors : List String
  blockedAuthorPatterns : List String
  blockedEmails : List String
  blockedEmailPatterns : List String
  blockedEmailDomains : List String
  regionDomainMap : List (String × List String)

/-- The `AuthorChecker` constructor.  Pattern strings are kept as strings
and compiled at match time via `Env.regexCompileI`; in the TypeScript
plugin an invalid pattern would already have aborted plugin construction,
so the compile-failure branch at match time is unreachable for a
constructed plugin. -/
def mkAuthorChecker (cfg : Option AuthorFilterConfig) : AuthorChecker :=
  let c := cfg.getD {}
  { enabled := c.enabled
    requireVerifiedEmail := c.requireVerifiedEmail
    blockedAuthors := c.blockedAuthors.map (fun a => strTrim (strToLower a))
    blockedAuthorPatterns := c.blockedAuthorPatterns
    blockedEmails := c.blockedEmails.map (fun e => strTrim (strToLower e))
    blockedEmailPatterns := c.blockedEmailPatterns
    blockedEmailDomains := c.blockedEmailDomains.map (fun d => strTrim (strToLower d))
    regionDomainMap := c.blockedRegions.map (fun region =>
      (strToLower region, (alookup (strToLower region) REGION_DOMAINS).getD [])) }

/-- Case-insensitive pattern test used by the author checker. -/
def regexTestI (env : Env) (p s : String) : Bool :=
  match env.regexCompileI p with
  | .ok test => test s
  | .error _ => false

/-- Result record of `AuthorChecker.checkAuthor`. -/
structure AuthorResult where
  allowed : Bool
  reason : Option String := none
  blockedBy : Option String := none
  authorInfo : Option AuthorInfo := none
deriving DecidableEq, Repr

/-- `AuthorChecker._checkSingleAuthor`: name rules (exact, then patterns),
then email rules (exact, patterns, blocked domains, blocked regions). -/
def checkSingleAuthor (env : Env) (ch : AuthorChecker) (author : AuthorInfo) :
    AuthorResult :=
  let nameStep : Option AuthorResult :=
    match author.name with
    | some nm =>
      if nm = "" then none
      else
        let normalizedName := strTrim (strToLower nm)
        if ch.blockedAuthors.contains normalizedName then
          some { allowed := false
                 reason := some ("Author name \"" ++ nm ++ "\" is blocked")
                 blockedBy := some "name", authorInfo := some author }
        else if ch.blockedAuthorPatterns.any (fun p => regexTestI env p nm) then
          some { allowed := false
                 reason := some ("Author name \"" ++ nm ++ "\" matches blocked pattern")
                 blockedBy := some "name", authorInfo := some author }
        else none
    | none => none
  match nameStep with
  | some r => r
  | none =>
    match author.email with
    | some em =>
      if em = "" then { allowed := true }
      else
        let normalizedEmail := strTrim (strToLower em)
        if ch.blockedEmails.contains normalizedEmail then
          { allowed := false
            reason := some ("Author email \"" ++ em ++ "\" is blocked")
            blockedBy := some "email", authorInfo := some author }
        else if ch.blockedEmailPatterns.any (fun p => regexTestI env p em) then
          { allowed := false
            reason := some ("Author email \"" ++ em ++ "\" matches blocked pattern")
            blockedBy := some "email", authorInfo := some author }
        else
          match ch.blockedEmailDomains.find? (fun domain =>
              strEndsWith normalizedEmail domain ||
              strContains normalizedEmail ("@" ++ domain)) with
          | some domain =>
            { allowed := false
              reason := some ("Author email domain \"" ++ domain ++ "\" is blocked")
              blockedBy := some "domain", authorInfo := some author }
          | none =>
            match ch.regionDomainMap.find? (fun rd =>
                rd.2.any (fun domain =>
                  strEndsWith normalizedEmail domain ||
                  strEndsWith normalizedEmail ("@" ++ domain) ||
                  strContains normalizedEmail ("@" ++ domain))) with
            | some rd =>
              { allowed := false
                reason := some ("Author email from blocked region \"" ++ rd.1.toUpper ++ "\"")
                blockedBy := some "region", authorInfo := some author }
            | none => { allowed := true }
    | none => { allowed := true }

/-- `AuthorChecker.checkAuthor`. -/
def checkAuthor (env : Env) (ch : AuthorChecker) (vd : VersionData) : AuthorResult :=
  if ¬ ch.enabled then { allowed := true }
  else
    let authors := extractAuthors vd
    if authors.isEmpty then
      if ch.requireVerifiedEmail then
        { allowed := false, reason := some "No author information available"
          blockedBy := some "email" }
      else { allowed := true }
    else
      match authors.find? (fun a => ¬ (checkSingleAuthor env ch a).allowed) with
      | some a => checkSingleAuthor env ch a
      | none => { allowed := true }

/-! ## `filter_metadata` (src/index.ts:333-579)

The body is decomposed into its four deep-check stages (CVE, license, age,
author); each stage either short-circuits with a fully blocked document or
passes the (possibly pruned) package on.  This mirrors the early-return
structure of the TypeScript method. -/

/-- Outcome of one deep-check stage. -/
inductive StageOut where
  | blockedDoc (r : Pkg)
  | pass (p : Pkg)

/-- All blocking return sites of `filter_metadata` share this shape: the
input spread with empty `versions` and `dist-tags` maps and a `security`
annotation with `blocked: true` (the further annotation fields are
informational only and not modelled). -/
def mkBlockedDoc (pkg : Pkg) (reason : String) : Pkg :=
  { pkg with versions := [], distTags := []
             security := some { blocked := true, reason := reason } }

/-- Stage 2 (CVE check, src/index.ts:364-409): each version's lookup is
dispatched in batches of 10 with `Promise.allSettled`; the batching is
order-preserving, so the collected vulnerable versions are the versions
(in key order) whose lookup fulfilled with `isVulnerable`.  Rejected
lookups are only logged.  With `autoBlock` and at least one vulnerable
version, the package is blocked with the count in the reason. -/
def cveStage (env : Env) (cfg : SecurityConfig) (pkg : Pkg) : StageOut :=
  match cfg.cveCheck with
  | some cve =>
    if cve.enabled then
      let versions := pkg.versions.map (·.1)
      let vulnerableVersions := versions.filter (fun v =>
        match env.cveCheck pkg.name v with
        | .ok r => r.isVulnerable
        | .error _ => false)
      if cve.autoBlock ∧ ¬ vulnerableVersions.isEmpty then
        StageOut.blockedDoc (mkBlockedDoc pkg
          ("Package has " ++ toString vulnerableVersions.length ++ " vulnerable version(s)"))
      else StageOut.pass pkg
    else StageOut.pass pkg
  | none => StageOut.pass pkg

/-- Stage 3 (license check, src/index.ts:412-439): only when an allowed
list is configured and non-empty, and only on the version the (truthy)
`latest` dist-tag points to.  (The `LicenseChecker` constructor
normalisation is the identity on a present, fully typed config.) -/
def licenseStage (cfg : SecurityConfig) (pkg : Pkg) : StageOut :=
  match cfg.licenses with
  | some lic =>
    if ¬ lic.allowed.isEmpty then
      match alookup "latest" pkg.distTags with
      | some latestVersion =>
        if latestVersion ≠ "" then
          match alookup latestVersion pkg.versions with
          | some versionData =>
            let licenseResult := checkLicense lic versionData
            if ¬ licenseResult.allowed then
              StageOut.blockedDoc (mkBlockedDoc pkg (jsOrStr licenseResult.reason "License not allowed"))
            else StageOut.pass pkg
          | none => StageOut.pass pkg
        else StageOut.pass pkg
      | none => StageOut.pass pkg
    else StageOut.pass pkg
  | none => StageOut.pass pkg

/-- The per-version test of stage 4b: the version is removed when its age
check fails and is not warn-only. -/
def versionAgeFails (pa : PackageAgeConfig) (now : Int) (pkg : Pkg) (v : String) : Bool :=
  let r := checkVersionAge pa now pkg v
  ¬ r.allowed ∧ ¬ truthyOptBool r.warnOnly

/-- The package produced by stage 4b pruning: too-new versions are deleted
and every dist-tag pointing at a removed version is deleted (never
redirected). -/
def prunedPkg (pkg : Pkg) (fails : String → Bool) : Pkg :=
  { pkg with
    versions := pkg.versions.filter (fun kv => ¬ fails kv.1)
    distTags := pkg.distTags.filter
      (fun kv => ¬ ((pkg.versions.map (·.1)).filter fails).contains kv.2) }

/-- Stage 4 (age check, src/index.ts:442-504): 4a blocks the whole package
when the package-age check fails and is not warn-only; 4b (only for a
truthy `minVersionAgeDays`) prunes each too-new version and, when at least
one version was removed, also drops every dist-tag pointing at a removed
version. -/
def ageStage (env : Env) (cfg : SecurityConfig) (pkg : Pkg) : StageOut :=
  match cfg.packageAge with
  | some pa =>
    if pa.enabled then
      let ageResult := checkPackageAge pa env.now pkg
      if ¬ ageResult.allowed ∧ ¬ truthyOptBool ageResult.warnOnly then
        StageOut.blockedDoc (mkBlockedDoc pkg (jsOrStr ageResult.reason "Package too new"))
      else
        if truthyOptInt pa.minVersionAgeDays then
          let removedVersions :=
            (pkg.versions.map (·.1)).filter (versionAgeFails pa env.now pkg)
          if ¬ removedVersions.isEmpty then
            StageOut.pass (prunedPkg pkg (versionAgeFails pa env.now pkg))
          else StageOut.pass pkg
        else StageOut.pass pkg
    else StageOut.pass pkg
  | none => StageOut.pass pkg

/-- Stage 5 (author check, src/index.ts:507-547): only on the version the
(truthy) `latest` dist-tag of the (possibly pruned) package points to;
`warnOnly` demotes a failing check to a log line. -/
def authorStage (env : Env) (cfg : SecurityConfig) (pkg : Pkg) : StageOut :=
  match cfg.authorFilter with
  | some af =>
    if af.enabled then
      match alookup "latest" pkg.distTags with
      | some latestVersion =>
        if latestVersion ≠ "" then
          match alookup latestVersion pkg.versions with
          | some versionData =>
            let authorResult := checkAuthor env (mkAuthorChecker cfg.authorFilter) versionData
            if ¬ authorResult.allowed ∧ ¬ af.warnOnly then
              StageOut.blockedDoc (mkBlockedDoc pkg (jsOrStr authorResult.reason "Author not allowed"))
            else StageOut.pass pkg
          | none => StageOut.pass pkg
        else StageOut.pass pkg
      | none => StageOut.pass pkg
    else StageOut.pass pkg
  | none => StageOut.pass pkg

/-- Continuation application for a stage outcome. -/
def runStage (s : StageOut) (k : Pkg → Pkg) : Pkg :=
  match s with
  | StageOut.blockedDoc r => r
  | StageOut.pass p => k p

/-- The deep-check pipeline after the initial block check. -/
def filterAfterBlock (env : Env) (cfg : SecurityConfig) (pkg : Pkg) : Pkg :=
  runStage (cveStage env cfg pkg) fun p1 =>
  runStage (licenseStage cfg p1) fun p2 =>
  runStage (ageStage env cfg p2) fun p3 =>
  runStage (authorStage env cfg p3) fun p4 => p4

/-- The `try` body of `filter_metadata`: the versionless block check (step
1), then the deep-check pipeline.  The only exception source in the body
is the unguarded `new RegExp` in `_isBlockedByPattern`. -/
def filterBody (env : Env) (cfg : SecurityConfig) (pkg : Pkg) : Except String Pkg :=
  (checkPackageBlock env cfg pkg.name none).map fun blockResult =>
    if blockResult.blocked then mkBlockedDoc pkg blockResult.reason
    else filterAfterBlock env cfg pkg

/-- `this.config.errorHandling?.onFilterError || 'fail-open'`.  (The plugin
constructor defaults a missing `errorHandling` block to all-fail-open,
which yields the same strategy value.) -/
def onFilterErrorStrategy (cfg : SecurityConfig) : String :=
  jsOrStr (cfg.errorHandling.bind (·.onFilterError)) "fail-open"

/-- The fail-closed error document (src/index.ts:560-573), built from the
original input with the error text embedded in the reason. -/
def failClosedDoc (packageInfo : Pkg) (e : String) : Pkg :=
  mkBlockedDoc packageInfo ("Error during security processing (fail-closed mode): " ++ e)

/-- `filter_metadata` (src/index.ts:333-579): run the body; on an internal
exception apply the `onFilterError` policy — fail-closed synthesises a
fully blocked document from the original input, anything else returns the
original input unchanged. -/
def filter_metadata (env : Env) (cfg : SecurityConfig) (packageInfo : Pkg) : Pkg :=
  match filterBody env cfg packageInfo with
  | .ok r => r
  | .error e =>
    if onFilterErrorStrategy cfg = "fail-closed" then failClosedDoc packageInfo e
    else packageInfo

/-! ## Specification-side predicates -/

/-- The claim predicate for version-range-rule loading: non-empty `package`,
`range` and `strategy`, a truthy `fallbackVersion` whenever the strategy is
`fallback`, and a range accepted by `semver.validRange`. -/
def validRangeRule (vr : String → Option String) (r : VersionRangeRule) : Bool :=
  !(r.package == "" || r.range == "" || r.strategy == "") &&
  !(r.strategy == "fallback" && !truthyOpt r.fallbackVersion) &&
  (vr r.range).isSome

/-- The "no license" test of `checkLicense`: absent, `""`, or the literal
`"UNLICENSED"`. -/
def noLicense (o : Option String) : Bool :=
  match o with
  | none => true
  | some s => s == "UNLICENSED" || s == ""

/-- The dist-tag consistency invariant: every tag value references a key
present in the versions map. -/
def tagsOk (p : Pkg) : Bool :=
  p.distTags.all (fun tv => (alookup tv.2 p.versions).isSome)

/-! ## Concrete fixtures for witnesses and counterexamples -/

/-- A concrete regex engine: the pattern `"("` fails to compile (as it does
in JavaScript); every other pattern compiles to a matcher that matches
nothing. -/
def rxFix (p : String) : Except String (String → Bool) :=
  if p = "(" then Except.error "Invalid regular expression" else Except.ok (fun _ => false)

/-- A concrete environment: `rxFix` as the regex engine, a semver oracle
that puts exactly `4.17.15` inside `>=4.17.0 <4.17.21`, a `validRange` that
accepts every range, a CVE lookup that always rejects, and a fixed clock. -/
def envFix : Env :=
  { regexCompile := rxFix
    regexCompileI := rxFix
    semverSatisfies := fun v r => v == "4.17.15" && r == ">=4.17.0 <4.17.21"
    validRange := fun _ => some "*"
    cveCheck := fun _ _ => Except.error "CVE lookup failed: network error"
    now := 1700000000000 }

/-- The fallback rule of the range-fallback scenario in the spec. -/
def fallbackRule : VersionRangeRule :=
  { package := "lodash", range := ">=4.17.0 <4.17.21"
    strategy := "fallback", fallbackVersion := some "4.17.21" }

/-- A configuration whose only rule is `fallbackRule`. -/
def cfgFallback : SecurityConfig := { versionRangeRules := some [fallbackRule] }

/-- A lodash document containing both the vulnerable `4.17.15` and the
fallback target `4.17.21` (distinct payloads). -/
def pkgLodash : Pkg :=
  { name := "lodash"
    versions := [("4.17.15", { version := "4.17.15", payload := 15 }),
                 ("4.17.21", { version := "4.17.21", payload := 21 })]
    distTags := [("latest", "4.17.21")] }

/-- CVE checking enabled with `autoBlock` and a fail-closed CVE error
policy. -/
def cfgCveFC : SecurityConfig :=
  { cveCheck := some { enabled := true, autoBlock := true }
    errorHandling := some { onCveCheckError := some "fail-closed" } }

/-- One day in milliseconds. -/
def dayMs : Int := 86400000

/-- Per-version age pruning at 30 days. -/
def cfgAge : SecurityConfig :=
  { packageAge := some { enabled := true, minPackageAgeDays := 0, minVersionAgeDays := some 30 } }

/-- A package with a 60-day-old `1.0.0` and a 5-day-old `2.0.0`, whose
`latest` tag points at `2.0.0`. -/
def pkgAged : Pkg :=
  { name := "my-lib"
    versions := [("1.0.0", { version := "1.0.0" }), ("2.0.0", { version := "2.0.0" })]
    distTags := [("latest", "2.0.0")]
    time := some [("created", some (1700000000000 - 365 * dayMs)),
                  ("modified", some 1700000000000),
                  ("1.0.0", some (1700000000000 - 60 * dayMs)),
                  ("2.0.0", some (1700000000000 - 5 * dayMs))] }

/-- An input document that already carries a `blocked: true` annotation from
upstream. -/
def pkgPreBlocked : Pkg :=
  { name := "x", versions := [("1.0.0", { version := "1.0.0" })]
    security := some { blocked := true, reason := "blocked by upstream" } }

/-- A configuration whose only blocked-name pattern is the malformed `"("`. -/
def cfgParens : SecurityConfig := { blockedPatterns := some ["("] }

/-- `cfgParens` with a fail-closed filter error policy. -/
def cfgParensFC : SecurityConfig :=
  { blockedPatterns := some ["("]
    errorHandling := some { onFilterError := some "fail-closed" } }

/-- Whitelist mode admitting `lodash`, together with an exact block entry
for `lodash@4.17.20`. -/
def cfgWhitelistAndBlock : SecurityConfig :=
  { mode := some "whitelist"
    whitelist := some { packages := ["lodash"] }
    blockedVersions := some ["lodash@4.17.20"] }

/-- Every version of `lodash` is in the exact block list and a block-range
rule covers the vulnerable range. -/
def cfgAllBlocked : SecurityConfig :=
  { blockedVersions := some ["lodash@4.17.15", "lodash@4.17.21"]
    versionRangeRules := some
      [ { package := "lodash", range := ">=4.17.0 <4.17.21", strategy := "block" } ] }

/-- Whitelist mode admitting only `lodash`. -/
def cfgWhitelistOnly : SecurityConfig :=
  { mode := some "whitelist"
    whitelist := some { packages := ["lodash"] } }

/-- A plain, unannotated document for a non-whitelisted package. -/
def pkgHawk : Pkg :=
  { name := "hawk"
    versions := [("9.0.0", { version := "9.0.0" })]
    distTags := [("latest", "9.0.0")] }

/-- A version record with the compound license `MIT OR GPL-3.0`. -/
def vdMitGpl : VersionData :=
  { version := "1.0.0", license := some (LicenseField.str "MIT OR GPL-3.0") }

/-- A version record with the compound license `MIT OR Apache-2.0`. -/
def vdMitApache : VersionData :=
  { version := "1.0.0", license := some (LicenseField.str "MIT OR Apache-2.0") }

/-! ## Helper lemmas -/

theorem listInfix_append (a sub : List Char) : listInfix sub (a ++ sub) = true := by
  induction a with
  | nil =>
    cases sub with
    | nil => rfl
    | cons c t => simp [listInfix, List.isPrefixOf_iff_prefix]
  | cons c a ih => simp [listInfix, ih]

theorem strContains_append (a b : String) : strContains (a ++ b) b = true := by
  have h : (a ++ b).toList = a.toList ++ b.toList := by
    simp [String.toList]
  simp [strContains, h, listInfix_append]

theorem alookup_isSome {α : Type} (k : String) (l : List (String × α)) :
    (alookup k l).isSome = true ↔ ∃ kv ∈ l, kv.1 = k := by
  simp [alookup, List.find?_isSome]

theorem parseRule_head (vr : String → Option String) (r : VersionRangeRule) :
    (if r.package = "" ∨ r.range = "" ∨ r.strategy = "" then none
     else if r.strategy = "fallback" ∧ ¬ truthyOpt r.fallbackVersion then none
     else match vr r.range with
          | none => none
          | some _ => some r)
    = if validRangeRule vr r then some r else none := by
  by_cases h1 : r.package = "" ∨ r.range = "" ∨ r.strategy = ""
  · have hf : validRangeRule vr r = false := by
      rcases h1 with h | h | h <;> simp [validRangeRule, h]
    rw [if_pos h1, hf]
    simp
  · by_cases h2 : r.strategy = "fallback" ∧ ¬ truthyOpt r.fallbackVersion
    · have hf : validRangeRule vr r = false := by
        simp [validRangeRule, h2.1, h2.2]
      rw [if_neg h1, if_pos h2, hf]
      simp
    · have h2b : (r.strategy == "fallback" && !truthyOpt r.fallbackVersion) = false := by
        by_cases hs : r.strategy = "fallback"
        · have ht : truthyOpt r.fallbackVersion = true := by
            by_contra hcon
            exact h2 ⟨hs, by simpa using hcon⟩
          simp [hs, ht]
        · simp [hs]
      push_neg at h1
      cases hv : vr r.range with
      | none =>
        have hf : validRangeRule vr r = false := by
          simp [validRangeRule, hv]
        rw [if_neg (by push_neg; exact h1), hf]
        simp [h2, hv]
      | some x =>
        have hf : validRangeRule vr r = true := by
          simp [validRangeRule, hv, h1.1, h1.2.1, h1.2.2, h2b]
        rw [if_neg (by push_neg; exact h1), hf]
        simp [h2, hv]
        intro hs
        by_contra hcon
        exact h2 ⟨hs, hcon⟩

theorem isLicenseBlocked_of_token (cfg : LicenseConfig) (lic : String)
    (h : (splitLicense lic).any (fun t => cfg.blocked.contains (strTrim t)) = true) :
    isLicenseBlocked cfg lic = true := by
  rw [List.any_eq_true] at h
  obtain ⟨t, ht, hc⟩ := h
  rw [List.elem_iff] at hc
  unfold isLicenseBlocked
  rw [List.any_eq_true]
  refine ⟨strTrim t, hc, ?_⟩
  have hany : (splitLicense lic).any (fun token => strTrim token == strTrim t) = true := by
    rw [List.any_eq_true]
    exact ⟨t, ht, by simp⟩
  simp [hany]

theorem isLicenseAllowed_eq_false (cfg : LicenseConfig) (lic : String)
    (h1 : cfg.allowed.contains lic = false)
    (h2 : (splitLicense lic).any (fun t => cfg.allowed.contains (strTrim t)) = false) :
    isLicenseAllowed cfg lic = false := by
  by_contra hcon
  rw [Bool.not_eq_false, isLicenseAllowed, List.any_eq_true] at hcon
  obtain ⟨a, ha, hpa⟩ := hcon
  rw [Bool.or_eq_true] at hpa
  rcases hpa with hx | hx
  · rw [beq_iff_eq] at hx
    subst hx
    have hc : cfg.allowed.contains a = true := by
      simpa [List.elem_iff] using ha
    rw [hc] at h1
    exact absurd h1 (by simp)
  · rw [List.any_eq_true] at hx
    obtain ⟨t, ht, htt⟩ := hx
    rw [beq_iff_eq] at htt
    have hct : cfg.allowed.contains (strTrim t) = true := by
      rw [htt]
      simpa [List.elem_iff] using ha
    have hany : (splitLicense lic).any (fun t => cfg.allowed.contains (strTrim t)) = true :=
      List.any_eq_true.mpr ⟨t, ht, hct⟩
    rw [hany] at h2
    exact absurd h2 (by simp)

theorem isWhitelisted_none (env : Env) (wl : WhitelistConfig) (name : String) :
    isWhitelisted env wl name none =
      if wl.packages.contains name then { allowed := true }
      else if matchesPattern env wl.patterns name then { allowed := true }
      else { allowed := false, reason := some "Package is not in whitelist" } := rfl

theorem cveStage_cases (env : Env) (cfg : SecurityConfig) (pkg : Pkg) :
    cveStage env cfg pkg = StageOut.pass pkg
    ∨ ∃ reason, cveStage env cfg pkg = StageOut.blockedDoc (mkBlockedDoc pkg reason) := by
  unfold cveStage
  cases h : cfg.cveCheck with
  | none => exact Or.inl rfl
  | some cve =>
    dsimp only
    split
    · split
      · exact Or.inr ⟨_, rfl⟩
      · exact Or.inl rfl
    · exact Or.inl rfl

theorem licenseStage_cases (cfg : SecurityConfig) (pkg : Pkg) :
    licenseStage cfg pkg = StageOut.pass pkg
    ∨ ∃ reason, licenseStage cfg pkg = StageOut.blockedDoc (mkBlockedDoc pkg reason) := by
  unfold licenseStage
  cases h : cfg.licenses with
  | none => exact Or.inl rfl
  | some lic =>
    dsimp only
    split
    · split
      · split
        · split
          · split
            · exact Or.inr ⟨_, rfl⟩
            · exact Or.inl rfl
          · exact Or.inl rfl
        · exact Or.inl rfl
      · exact Or.inl rfl
    · exact Or.inl rfl

theorem authorStage_cases (env : Env) (cfg : SecurityConfig) (pkg : Pkg) :
    authorStage env cfg pkg = StageOut.pass pkg
    ∨ ∃ reason, authorStage env cfg pkg = StageOut.blockedDoc (mkBlockedDoc pkg reason) := by
  unfold authorStage
  cases h : cfg.authorFilter with
  | none => exact Or.inl rfl
  | some af =>
    dsimp only
    split
    · split
      · split
        · split
          · split
            · exact Or.inr ⟨_, rfl⟩
            · exact Or.inl rfl
          · exact Or.inl rfl
        · exact Or.inl rfl
      · exact Or.inl rfl
    · exact Or.inl rfl

theorem ageStage_cases (env : Env) (cfg : SecurityConfig) (pkg : Pkg) :
    ageStage env cfg pkg = StageOut.pass pkg
    ∨ (∃ reason, ageStage env cfg pkg = StageOut.blockedDoc (mkBlockedDoc pkg reason))
    ∨ (∃ fails : String → Bool, ageStage env cfg pkg = StageOut.pass (prunedPkg pkg fails)) := by
  unfold ageStage
  cases h : cfg.packageAge with
  | none => exact Or.inl rfl
  | some pa =>
    dsimp only
    split
    · split
      · exact Or.inr (Or.inl ⟨_, rfl⟩)
      · split
        · split
          · exact Or.inr (Or.inr ⟨versionAgeFails pa env.now pkg, rfl⟩)
          · exact Or.inl rfl
        · exact Or.inl rfl
    · exact Or.inl rfl

theorem tagsOk_prunedPkg (pkg : Pkg) (fails : String → Bool)
    (h : tagsOk pkg = true) : tagsOk (prunedPkg pkg fails) = true := by
  rw [tagsOk, List.all_eq_true] at h ⊢
  intro tv htv
  rw [prunedPkg] at htv ⊢
  dsimp only at htv ⊢
  rw [List.mem_filter] at htv
  obtain ⟨hmem, hkeep⟩ := htv
  rw [decide_eq_true_eq] at hkeep
  have hsome := h tv hmem
  rw [alookup_isSome] at hsome ⊢
  obtain ⟨kv, hkv, hk⟩ := hsome
  have hfv : fails tv.2 = false := by
    by_contra hcon
    rw [Bool.not_eq_false] at hcon
    exact hkeep (List.elem_iff.mpr
      (List.mem_filter.mpr ⟨List.mem_map.mpr ⟨kv, hkv, hk⟩, hcon⟩))
  refine ⟨kv, ?_, hk⟩
  rw [List.mem_filter]
  refine ⟨hkv, ?_⟩
  rw [hk, hfv]
  rfl

theorem prunedPkg_distTags_sublist (pkg : Pkg) (fails : String → Bool) :
    List.Sublist (prunedPkg pkg fails).distTags pkg.distTags := by
  rw [prunedPkg]
  exact List.filter_sublist _

theorem filterAfterBlock_props (env : Env) (cfg : SecurityConfig) (pkg : Pkg) :
    ((filterAfterBlock env cfg pkg).security = pkg.security
      ∧ List.Sublist (filterAfterBlock env cfg pkg).distTags pkg.distTags
      ∧ (tagsOk pkg = true → tagsOk (filterAfterBlock env cfg pkg) = true))
    ∨ (∃ p reason, filterAfterBlock env cfg pkg = mkBlockedDoc p reason) := by
  unfold filterAfterBlock
  rcases cveStage_cases env cfg pkg with h1 | ⟨r1, h1⟩
  · rw [h1]
    dsimp only [runStage]
    rcases licenseStage_cases cfg pkg with h2 | ⟨r2, h2⟩
    · rw [h2]
      dsimp only [runStage]
      rcases ageStage_cases env cfg pkg with h3 | ⟨r3, h3⟩ | ⟨fails, h3⟩
      · rw [h3]
        dsimp only [runStage]
        rcases authorStage_cases env cfg pkg with h4 | ⟨r4, h4⟩
        · rw [h4]
          exact Or.inl ⟨rfl, List.Sublist.refl _, fun h => h⟩
        · rw [h4]
          exact Or.inr ⟨pkg, r4, rfl⟩
      · rw [h3]
        exact Or.inr ⟨pkg, r3, rfl⟩
      · rw [h3]
        dsimp only [runStage]
        rcases authorStage_cases env cfg (prunedPkg pkg fails) with h4 | ⟨r4, h4⟩
        · rw [h4]
          exact Or.inl ⟨rfl, prunedPkg_distTags_sublist pkg fails,
            fun h => tagsOk_prunedPkg pkg fails h⟩
        · rw [h4]
          exact Or.inr ⟨prunedPkg pkg fails, r4, rfl⟩
    · rw [h2]
      exact Or.inr ⟨pkg, r2, rfl⟩
  · rw [h1]
    exact Or.inr ⟨pkg, r1, rfl⟩

/-! ## Claim theorems -/

/-- C1 (code bug): a matching `fallback` range rule has no effect anywhere
in the evaluator.  With the rule loaded and matching `lodash@4.17.15`
(`semverSatisfies` holds), the block check passes the version through
(`blocked := false`), and `filter_metadata` returns the document unchanged:
the requested version id neither receives the fallback payload nor an
`isFallback` annotation (`fallbackFlag` stays `none`), and nothing is
blocked when the fallback version would be absent either — contradicting
the documented fallback behaviour. -/
theorem c1_fallback_rule_no_effect :
    (securityRulesOf envFix cfgFallback).versionRangeRules = [fallbackRule]
    ∧ envFix.semverSatisfies "4.17.15" fallbackRule.range = true
    ∧ getVersionRangeRule envFix (securityRulesOf envFix cfgFallback).versionRangeRules
        "lodash" "4.17.15" = some fallbackRule
    ∧ checkPackageBlock envFix cfgFallback "lodash" (some "4.17.15")
        = Except.ok { blocked := false, reason := "" }
    ∧ filter_metadata envFix cfgFallback pkgLodash = pkgLodash
    ∧ (alookup "4.17.15" (filter_metadata envFix cfgFallback pkgLodash).versions).map
        VersionData.fallbackFlag = some none :=
  ⟨rfl, rfl, rfl, rfl, rfl, rfl⟩

/-- C2 (confirmed): `filter_metadata` is total, and when its body raises an
internal error, the `onFilterError` policy decides the result: fail-closed
yields the fully blocked error document — empty `versions` and `dist-tags`
maps and a `security` annotation with `blocked = true` whose reason
contains the error text — while any other strategy (fail-open or unset)
returns the original input unchanged. -/
theorem c2_filter_metadata_error_policy (env : Env) (cfg : SecurityConfig) (pkg : Pkg)
    (e : String) (h : filterBody env cfg pkg = Except.error e) :
    (onFilterErrorStrategy cfg = "fail-closed" →
      filter_metadata env cfg pkg = failClosedDoc pkg e
      ∧ (filter_metadata env cfg pkg).versions = []
      ∧ (filter_metadata env cfg pkg).distTags = []
      ∧ ∃ s, (filter_metadata env cfg pkg).security = some s
          ∧ s.blocked = true ∧ strContains s.reason e = true)
    ∧ (onFilterErrorStrategy cfg ≠ "fail-closed" →
      filter_metadata env cfg pkg = pkg) := by
  constructor
  · intro hs
    have hm : filter_metadata env cfg pkg = failClosedDoc pkg e := by
      unfold filter_metadata
      rw [h]
      simp [hs]
    refine ⟨hm, by rw [hm]; rfl, by rw [hm]; rfl, ?_⟩
    rw [hm]
    exact ⟨_, rfl, rfl, strContains_append "Error during security processing (fail-closed mode): " e⟩
  · intro hs
    unfold filter_metadata
    rw [h]
    simp [hs]

/-- Witness for C2: with the malformed blocked pattern `"("` and
`onFilterError = fail-closed`, the body errors and the result is the
annotated error document. -/
theorem c2_filter_metadata_error_policy_witness :
    onFilterErrorStrategy cfgParensFC = "fail-closed"
    ∧ (filter_metadata envFix cfgParensFC pkgLodash
        = failClosedDoc pkgLodash "Invalid regular expression"
      ∧ (filter_metadata envFix cfgParensFC pkgLodash).versions = []
      ∧ (filter_metadata envFix cfgParensFC pkgLodash).distTags = []
      ∧ ∃ s, (filter_metadata envFix cfgParensFC pkgLodash).security = some s
          ∧ s.blocked = true ∧ strContains s.reason "Invalid regular expression" = true) :=
  ⟨rfl, (c2_filter_metadata_error_policy envFix cfgParensFC pkgLodash
    "Invalid regular expression" rfl).1 rfl⟩

/-- C3 (code bug): a CVE lookup failure never blocks, even under a
fail-closed `onCveCheckError` policy.  With CVE checking enabled,
`autoBlock` on, the policy set to `fail-closed` and every lookup rejecting,
`filter_metadata` still returns the package unchanged and unblocked — the
`onCveCheckError` setting is never consulted by the code. -/
theorem c3_cve_failure_fail_closed_still_allowed :
    (cfgCveFC.errorHandling.map ErrorHandling.onCveCheckError) = some (some "fail-closed")
    ∧ envFix.cveCheck "lodash" "4.17.15" = Except.error "CVE lookup failed: network error"
    ∧ filter_metadata envFix cfgCveFC pkgLodash = pkgLodash
    ∧ (filter_metadata envFix cfgCveFC pkgLodash).security = none :=
  ⟨rfl, rfl, rfl, rfl⟩

/-- Counterexample for C4: per-version age pruning removes `2.0.0` and then
drops the `latest` tag entirely even though the semver-valid `1.0.0`
remains — the tag is not redirected to the highest remaining version, as
the claim states it would be. -/
theorem c4_counterexample_tag_dropped_not_redirected :
    (filter_metadata envFix cfgAge pkgAged).versions = [("1.0.0", { version := "1.0.0" })]
    ∧ (filter_metadata envFix cfgAge pkgAged).distTags = []
    ∧ alookup "latest" (filter_metadata envFix cfgAge pkgAged).distTags = none :=
  ⟨rfl, rfl, rfl⟩

/-- C4 (corrected): after any filter outcome the resulting dist-tag map is
a sublist of the input dist-tag map — tags are only ever dropped, never
redirected or added — and, provided every input tag references a key of
the input versions map, every surviving tag references a key of the
resulting versions map. -/
theorem c4_dist_tag_drop_and_invariant (env : Env) (cfg : SecurityConfig) (pkg : Pkg) :
    List.Sublist (filter_metadata env cfg pkg).distTags pkg.distTags
    ∧ (tagsOk pkg = true → tagsOk (filter_metadata env cfg pkg) = true) := by
  unfold filter_metadata
  cases hb : filterBody env cfg pkg with
  | error e =>
    dsimp only
    split
    · exact ⟨List.nil_sublist _, fun _ => rfl⟩
    · exact ⟨List.Sublist.refl _, fun h => h⟩
  | ok r =>
    dsimp only
    rw [filterBody] at hb
    cases hcb : checkPackageBlock env cfg pkg.name none with
    | error e =>
      rw [hcb] at hb
      simp [Except.map] at hb
    | ok br =>
      rw [hcb] at hb
      simp only [Except.map] at hb
      injection hb with hb
      by_cases hbl : br.blocked = true
      · rw [if_pos hbl] at hb
        rw [← hb]
        exact ⟨List.nil_sublist _, fun _ => rfl⟩
      · rw [if_neg hbl] at hb
        rw [← hb]
        rcases filterAfterBlock_props env cfg pkg with ⟨_, hsub, htags⟩ | ⟨p, reason, heq⟩
        · exact ⟨hsub, htags⟩
        · rw [heq]
          exact ⟨List.nil_sublist _, fun _ => rfl⟩

/-- Witness for C4: the aged package satisfies the input invariant, and the
pruned result keeps the invariant with its tags a sublist of the input. -/
theorem c4_dist_tag_drop_and_invariant_witness :
    tagsOk pkgAged = true
    ∧ List.Sublist (filter_metadata envFix cfgAge pkgAged).distTags pkgAged.distTags
    ∧ tagsOk (filter_metadata envFix cfgAge pkgAged) = true :=
  ⟨rfl, (c4_dist_tag_drop_and_invariant envFix cfgAge pkgAged).1,
    (c4_dist_tag_drop_and_invariant envFix cfgAge pkgAged).2 rfl⟩

/-- Counterexample for C5: with the malformed blocked-name pattern `"("`,
the fast-path block check raises the regex compilation exception instead
of treating the pattern as matching nothing. -/
theorem c5_counterexample_blocked_pattern_throws :
    checkPackageBlock envFix cfgParens "left-pad" none
      = Except.error "Invalid regular expression" := rfl

/-- C5 (corrected): only the whitelist checker degrades a malformed pattern
to "never matches" (it contributes nothing to the match and no exception
escapes); the blocked-name pattern check, by contrast, propagates the
compilation exception to its caller. -/
theorem c5_invalid_pattern_behaviour (env : Env) (p e : String) (ps : List String)
    (name : String) (h : env.regexCompile p = Except.error e) :
    matchesPattern env (p :: ps) name = matchesPattern env ps name
    ∧ isBlockedByPattern env [p] name = Except.error e := by
  constructor
  · simp [matchesPattern, h]
  · simp [isBlockedByPattern, h]

/-- Witness for C5 at the malformed pattern `"("`. -/
theorem c5_invalid_pattern_behaviour_witness :
    matchesPattern envFix ["(", "x"] "left-pad" = matchesPattern envFix ["x"] "left-pad"
    ∧ isBlockedByPattern envFix ["("] "left-pad"
        = Except.error "Invalid regular expression" :=
  c5_invalid_pattern_behaviour envFix "(" "Invalid regular expression" ["x"] "left-pad" rfl

/-- C6 (confirmed): rule loading is a total function returning exactly the
subset of entries with non-empty (truthy) `package`, `range` and
`strategy`, a truthy `fallbackVersion` whenever the strategy is
`fallback`, and a range accepted by `semver.validRange` — in input order. -/
theorem c6_parse_version_range_rules_exact_filter (vr : String → Option String)
    (rules : List VersionRangeRule) :
    parseVersionRangeRules vr rules = rules.filter (validRangeRule vr) := by
  induction rules with
  | nil => rfl
  | cons r t ih =>
    simp only [parseVersionRangeRules, List.map_cons, List.filterMap_cons, id_eq,
      List.filter_cons] at ih ⊢
    rw [parseRule_head]
    cases hvr : validRangeRule vr r with
    | false => simpa [hvr] using ih
    | true => simpa [hvr] using ih

/-- C7 (confirmed): whenever the exact `package@version` pair is in the
configured block list and the block check (with the version supplied)
completes without an exception, the result is blocked — regardless of
whitelist membership, scope policy, or any other passing check, because
every earlier check either passes control onward or itself blocks. -/
theorem c7_exact_block_entry_always_blocks (env : Env) (cfg : SecurityConfig)
    (name v : String) (r : BlockResult)
    (hmem : (cfg.blockedVersions.getD []).contains (name ++ "@" ++ v) = true)
    (hok : checkPackageBlock env cfg name (some v) = Except.ok r) :
    r.blocked = true := by
  unfold checkPackageBlock at hok
  dsimp only at hok
  split at hok
  · injection hok with h
    rw [← h]
  · cases hbp : isBlockedByPattern env (securityRulesOf env cfg).blockedPatterns name with
    | error e =>
      rw [hbp] at hok
      simp [Bind.bind, Except.bind] at hok
    | ok pat =>
      rw [hbp] at hok
      simp only [Bind.bind, Except.bind] at hok
      cases pat with
      | true =>
        simp at hok
        subst hok
        rfl
      | false =>
        simp only [Bool.false_eq_true, if_false] at hok
        split at hok
        · injection hok with h
          rw [← h]
        · have hbv : (securityRulesOf env cfg).blockedVersions.contains (name ++ "@" ++ v)
              = true := by
            simpa [securityRulesOf] using hmem
          rw [if_pos hbv] at hok
          injection hok with h
          rw [← h]

/-- Witness for C7: `lodash@4.17.20` is block-listed while `lodash` itself
is whitelisted in whitelist mode, and the check still blocks. -/
theorem c7_exact_block_entry_always_blocks_witness :
    (cfgWhitelistAndBlock.blockedVersions.getD []).contains ("lodash" ++ "@" ++ "4.17.20") = true
    ∧ (isWhitelisted envFix (cfgWhitelistAndBlock.whitelist.getD {}) "lodash"
        (some "4.17.20")).allowed = true
    ∧ ∃ r, checkPackageBlock envFix cfgWhitelistAndBlock "lodash" (some "4.17.20")
        = Except.ok r ∧ r.blocked = true :=
  ⟨rfl, rfl, ⟨{ blocked := true, reason := "Exact version match in blocklist" }, rfl,
    c7_exact_block_entry_always_blocks envFix cfgWhitelistAndBlock "lodash" "4.17.20" _ rfl rfl⟩⟩

/-- C8 (confirmed): `checkLicense` blocks a missing/empty/`UNLICENSED`
license exactly when `requireLicense` is set; for a present license it
blocks whenever some `OR`/`AND` token (trimmed) is in the blocked list;
with a non-empty allowed list it blocks unless the whole string or some
token is in the allowed list; and the two SPDX scenarios evaluate as the
spec states. -/
theorem c8_check_license_policy :
    (∀ (cfg : LicenseConfig) (vd : VersionData),
      noLicense (extractLicense vd) = true →
      ((checkLicense cfg vd).allowed = false ↔ cfg.requireLicense = true))
    ∧ (∀ (cfg : LicenseConfig) (vd : VersionData) (lic : String),
      extractLicense vd = some lic → noLicense (some lic) = false →
      (splitLicense lic).any (fun t => cfg.blocked.contains (strTrim t)) = true →
      (checkLicense cfg vd).allowed = false)
    ∧ (∀ (cfg : LicenseConfig) (vd : VersionData) (lic : String),
      extractLicense vd = some lic → noLicense (some lic) = false →
      cfg.allowed ≠ [] →
      (cfg.allowed.contains lic
        || (splitLicense lic).any (fun t => cfg.allowed.contains (strTrim t))) = false →
      (checkLicense cfg vd).allowed = false)
    ∧ (checkLicense { blocked := ["GPL-3.0"] } vdMitGpl).allowed = false
    ∧ (checkLicense { allowed := ["MIT", "Apache-2.0"], blocked := ["GPL-3.0"] }
        vdMitApache).allowed = true := by
  refine ⟨?_, ?_, ?_, rfl, rfl⟩
  · intro cfg vd hmiss
    simp only [checkLicense]
    cases hx : extractLicense vd with
    | none =>
      cases hrl : cfg.requireLicense <;> simp [hrl]
    | some lic =>
      rw [hx] at hmiss
      dsimp only
      simp only [noLicense, Bool.or_eq_true, beq_iff_eq] at hmiss
      rw [if_pos hmiss]
      cases hrl : cfg.requireLicense <;> simp [hrl]
  · intro cfg vd lic hx hnl hb
    simp only [checkLicense, hx]
    have hmiss : ¬ (lic = "UNLICENSED" ∨ lic = "") := by
      simp only [noLicense, Bool.or_eq_true, beq_iff_eq] at hnl
      simpa using hnl
    rw [if_neg hmiss, isLicenseBlocked_of_token cfg lic hb]
    simp
  · intro cfg vd lic hx hnl hne hfalse
    simp only [checkLicense, hx]
    have hmiss : ¬ (lic = "UNLICENSED" ∨ lic = "") := by
      simp only [noLicense, Bool.or_eq_true, beq_iff_eq] at hnl
      simpa using hnl
    rw [if_neg hmiss]
    obtain ⟨h1, h2⟩ := Bool.or_eq_false_iff.mp hfalse
    have hall : isLicenseAllowed cfg lic = false := isLicenseAllowed_eq_false cfg lic h1 h2
    by_cases hblk : isLicenseBlocked cfg lic = true
    · simp [hblk]
    · simp [Bool.not_eq_true] at hblk
      simp [hblk, hall, List.isEmpty_eq_false.mpr hne]

/-- Witness for C8: the blocked-token clause applied to
`"MIT OR GPL-3.0"` against the blocked list `["GPL-3.0"]`. -/
theorem c8_check_license_policy_witness :
    extractLicense vdMitGpl = some "MIT OR GPL-3.0"
    ∧ noLicense (some "MIT OR GPL-3.0") = false
    ∧ (splitLicense "MIT OR GPL-3.0").any
        (fun t => (["GPL-3.0"] : List String).contains (strTrim t)) = true
    ∧ (checkLicense { blocked := ["GPL-3.0"] } vdMitGpl).allowed = false :=
  ⟨rfl, rfl, rfl,
    c8_check_license_policy.2.1 { blocked := ["GPL-3.0"] } vdMitGpl "MIT OR GPL-3.0" rfl rfl rfl⟩

/-- C9 (confirmed): a versionless block check — as issued for every
metadata request — never consults the exact block list, the range rules,
or the whitelist version constraints: its result depends only on the mode,
the whitelist package/pattern lists, the blocked patterns, and the scope
lists. -/
theorem c9_versionless_check_ignores_version_rules (env : Env)
    (cfg₁ cfg₂ : SecurityConfig) (name : String)
    (hmode : cfg₁.mode = cfg₂.mode)
    (hwp : (cfg₁.whitelist.getD {}).packages = (cfg₂.whitelist.getD {}).packages)
    (hwq : (cfg₁.whitelist.getD {}).patterns = (cfg₂.whitelist.getD {}).patterns)
    (hbp : cfg₁.blockedPatterns = cfg₂.blockedPatterns)
    (has : cfg₁.allowedScopes = cfg₂.allowedScopes)
    (hbs : cfg₁.blockedScopes = cfg₂.blockedScopes) :
    checkPackageBlock env cfg₁ name none = checkPackageBlock env cfg₂ name none := by
  have hwl : isWhitelisted env (cfg₁.whitelist.getD {}) name none
           = isWhitelisted env (cfg₂.whitelist.getD {}) name none := by
    rw [isWhitelisted_none, isWhitelisted_none, hwp, hwq]
  have hsc : isScopeAllowed (securityRulesOf env cfg₁) name
           = isScopeAllowed (securityRulesOf env cfg₂) name := by
    unfold isScopeAllowed
    simp only [securityRulesOf]
    rw [has, hbs]
  have hpat : (securityRulesOf env cfg₁).blockedPatterns
            = (securityRulesOf env cfg₂).blockedPatterns := by
    simp only [securityRulesOf]
    rw [hbp]
  unfold checkPackageBlock
  dsimp only
  rw [hmode, hwl, hpat, hsc]

/-- Witness for C9: with every version of `lodash` exact-block-listed and a
block-range rule covering them, the versionless check still admits the
package, agreeing with the empty configuration. -/
theorem c9_versionless_check_ignores_version_rules_witness :
    checkPackageBlock envFix cfgAllBlocked "lodash" none
      = checkPackageBlock envFix {} "lodash" none
    ∧ checkPackageBlock envFix cfgAllBlocked "lodash" none
      = Except.ok { blocked := false, reason := "" } :=
  ⟨c9_versionless_check_ignores_version_rules envFix cfgAllBlocked {} "lodash"
      rfl rfl rfl rfl rfl rfl, rfl⟩

/-- Counterexample for C10: an input that already carries a
`blocked = true` security annotation passes every check and is returned
unchanged, so the result has a blocked annotation and a non-empty versions
map. -/
theorem c10_counterexample_passthrough_annotation :
    (filter_metadata envFix {} pkgPreBlocked).security
        = some { blocked := true, reason := "blocked by upstream" }
    ∧ (filter_metadata envFix {} pkgPreBlocked).versions ≠ [] :=
  ⟨rfl, by decide⟩

/-- C10 (corrected): for every input whose own security annotation is
absent or not blocked, every result of `filter_metadata` whose security
annotation has `blocked = true` has empty `versions` and `dist-tags`
maps. -/
theorem c10_blocked_doc_empty_maps (env : Env) (cfg : SecurityConfig) (pkg : Pkg)
    (hin : ∀ s, pkg.security = some s → s.blocked = false)
    (s' : Security) (hs : (filter_metadata env cfg pkg).security = some s')
    (hbl' : s'.blocked = true) :
    (filter_metadata env cfg pkg).versions = []
    ∧ (filter_metadata env cfg pkg).distTags = [] := by
  unfold filter_metadata at hs ⊢
  cases hb : filterBody env cfg pkg with
  | error e =>
    rw [hb] at hs
    dsimp only at hs ⊢
    split at hs
    · next hstrat => rw [if_pos hstrat]; exact ⟨rfl, rfl⟩
    · next hstrat =>
      rw [if_neg hstrat]
      rw [hs] at hin
      exact absurd (hin s' rfl) (by simp [hbl'])
  | ok r =>
    rw [hb] at hs
    dsimp only at hs ⊢
    rw [filterBody] at hb
    cases hcb : checkPackageBlock env cfg pkg.name none with
    | error e =>
      rw [hcb] at hb
      simp [Except.map] at hb
    | ok br =>
      rw [hcb] at hb
      simp only [Except.map] at hb
      injection hb with hb
      by_cases hbl : br.blocked = true
      · rw [if_pos hbl] at hb
        rw [← hb]
        exact ⟨rfl, rfl⟩
      · rw [if_neg hbl] at hb
        rw [← hb] at hs ⊢
        rcases filterAfterBlock_props env cfg pkg with ⟨hsec, _, _⟩ | ⟨p, reason, heq⟩
        · rw [hsec] at hs
          exact absurd (hin s' hs) (by simp [hbl'])
        · rw [heq]
          exact ⟨rfl, rfl⟩

/-- Witness for C10: a non-whitelisted package with no input annotation is
blocked by whitelist mode and the result has empty maps. -/
theorem c10_blocked_doc_empty_maps_witness :
    (filter_metadata envFix cfgWhitelistOnly pkgHawk).versions = []
    ∧ (filter_metadata envFix cfgWhitelistOnly pkgHawk).distTags = [] :=
  c10_blocked_doc_empty_maps envFix cfgWhitelistOnly pkgHawk
    (fun _ hs => Option.noConfusion hs)
    { blocked := true, reason := "Package is not in whitelist" } rfl rfl

end VSF
